import Mathlib

set_option maxRecDepth 16384

/-!
Shallow embedding of `src/netif.c` (pflask's network-interface provisioning
module) and proofs about its netlink message construction, attribute nesting,
request queue and error handling.

The message buffer is modelled at byte granularity: `Nlmsg` keeps the scalar
header/body fields the C code accesses through struct members, plus a byte
memory `mem : Nat → Nat` for the attribute region written through
`NLMSG_TAIL` pointer arithmetic.  16-bit fields (`rta_len`, `rta_type`) are
stored little-endian, matching the Linux/x86 ABI the code targets.  `malloc`'s
uninitialized bytes are modelled as zero; no modelled claim reads a byte the
code did not write.
-/

/-- Size in bytes of `struct nlmsghdr` (u32 len, u16 type, u16 flags, u32 seq, u32 pid). -/
def nlmsghdrSize : Nat := 16

/-- Size in bytes of `struct ifinfomsg`. -/
def ifinfomsgSize : Nat := 16

/-- Size in bytes of `struct nlmsg` from netif.c: `nlmsghdr` plus the
union of `ifinfomsg` (16 bytes) and `nlmsgerr` (20 bytes). -/
def nlmsgSize : Nat := 36

/-- `NLMSG_ALIGN(len)`: round up to a multiple of 4 (the C macro
`(len + 3) & ~3`). -/
def NLMSG_ALIGN (n : Nat) : Nat := (n + 3) / 4 * 4

/-- `NLMSG_HDRLEN`. -/
def NLMSG_HDRLEN : Nat := NLMSG_ALIGN nlmsghdrSize

/-- `NLMSG_LENGTH(len)`. -/
def NLMSG_LENGTH (l : Nat) : Nat := l + NLMSG_HDRLEN

/-- `NLMSG_GOOD_SIZE` from netif.c line 53: `sizeof(struct nlmsg) * 256`. -/
def NLMSG_GOOD_SIZE : Nat := nlmsgSize * 256

/-- `RTA_ALIGN(len)`: round up to a multiple of 4. -/
def RTA_ALIGN (n : Nat) : Nat := (n + 3) / 4 * 4

/-- Size in bytes of `struct rtattr` (u16 rta_len, u16 rta_type). -/
def rtattrSize : Nat := 4

/-- `RTA_LENGTH(len)`: attribute header size plus payload size. -/
def RTA_LENGTH (l : Nat) : Nat := RTA_ALIGN rtattrSize + l

/-- `RTM_NEWLINK`. -/
def RTM_NEWLINK : Nat := 16

/-- `NLMSG_ERROR`: the reply message kind carrying an error record. -/
def NLMSG_ERROR : Nat := 2

/-- `NLM_F_REQUEST`. -/
def NLM_F_REQUEST : Nat := 1

/-- `NLM_F_ACK`. -/
def NLM_F_ACK : Nat := 4

/-- `NLM_F_EXCL`. -/
def NLM_F_EXCL : Nat := 512

/-- `NLM_F_CREATE`. -/
def NLM_F_CREATE : Nat := 1024

/-- `AF_UNSPEC`. -/
def AF_UNSPEC : Nat := 0

/-- `IFF_UP`. -/
def IFF_UP : Nat := 1

/-- `IFLA_IFNAME`. -/
def IFLA_IFNAME : Nat := 3

/-- `IFLA_LINK`. -/
def IFLA_LINK : Nat := 5

/-- `IFLA_LINKINFO`. -/
def IFLA_LINKINFO : Nat := 18

/-- `IFLA_NET_NS_PID`. -/
def IFLA_NET_NS_PID : Nat := 19

/-- `IFLA_INFO_KIND`. -/
def IFLA_INFO_KIND : Nat := 1

/-- `IFLA_INFO_DATA`. -/
def IFLA_INFO_DATA : Nat := 2

/-- `VETH_INFO_PEER`. -/
def VETH_INFO_PEER : Nat := 1

/-- Point update of a byte memory. -/
def upd (mem : Nat → Nat) (o v : Nat) : Nat → Nat :=
  fun x => if x = o then v else mem x

/-- Store a 16-bit value little-endian at offset `o`. -/
def write16 (mem : Nat → Nat) (o v : Nat) : Nat → Nat :=
  upd (upd mem o (v % 256)) (o + 1) (v / 256 % 256)

/-- `memcpy` of a byte list to offset `o`. -/
def writeBytes (mem : Nat → Nat) (o : Nat) : List Nat → (Nat → Nat)
  | [] => mem
  | b :: bs => writeBytes (upd mem o (b % 256)) (o + 1) bs

/-- Load a 16-bit little-endian value at offset `o`. -/
def read16 (mem : Nat → Nat) (o : Nat) : Nat := mem o + 256 * mem (o + 1)

/-- Read `n` bytes starting at offset `o`. -/
def readBytes (mem : Nat → Nat) (o : Nat) : Nat → List Nat
  | 0 => []
  | n + 1 => mem o :: readBytes mem (o + 1) n

/-- The in-memory netlink request of netif.c's `struct nlmsg`: the scalar
header/body fields the code assigns through struct members, plus the raw byte
region holding the attributes (offsets are from the start of the message;
the attribute region starts at `NLMSG_LENGTH ifinfomsgSize = 32`). -/
structure Nlmsg where
  nlmsg_len : Nat
  nlmsg_type : Nat
  nlmsg_flags : Nat
  nlmsg_seq : Nat
  ifi_family : Nat
  ifi_index : Nat
  ifi_flags : Nat
  ifi_change : Nat
  mem : Nat → Nat

/-- `rtattr_append` (netif.c lines 321-333): write the attribute header at
`NLMSG_TAIL` (type at offset +2, length `RTA_LENGTH len` at offset +0),
`memcpy` the payload at `RTA_DATA` (offset +4), and advance `nlmsg_len` by
the aligned attribute size.  Exactly as in the C, there is no capacity
check against `NLMSG_GOOD_SIZE`. -/
def rtattr_append (nlmsg : Nlmsg) (attr : Nat) (d : List Nat) : Nlmsg :=
  let rtalen := RTA_LENGTH d.length
  let off := NLMSG_ALIGN nlmsg.nlmsg_len
  let m1 := write16 nlmsg.mem (off + 2) attr
  let m2 := write16 m1 off rtalen
  let m3 := writeBytes m2 (off + 4) d
  { nlmsg with mem := m3, nlmsg_len := NLMSG_ALIGN nlmsg.nlmsg_len + RTA_ALIGN rtalen }

/-- `rtattr_start_nested` (netif.c lines 335-341): record the tail offset,
append a zero-payload attribute header there, and return the cursor. -/
def rtattr_start_nested (nlmsg : Nlmsg) (attr : Nat) : Nlmsg × Nat :=
  (rtattr_append nlmsg attr [], NLMSG_ALIGN nlmsg.nlmsg_len)

/-- `rtattr_end_nested` (netif.c lines 343-345): back-patch the nested
attribute's `rta_len` with the pointer difference `NLMSG_TAIL - rtattr`,
i.e. the aligned current length minus the cursor offset. -/
def rtattr_end_nested (nlmsg : Nlmsg) (cursor : Nat) : Nlmsg :=
  { nlmsg with mem := write16 nlmsg.mem cursor (NLMSG_ALIGN nlmsg.nlmsg_len - cursor) }

/-- The bytes of a C string (without the NUL terminator). -/
def strBytes (s : String) : List Nat := s.data.map Char.toNat

/-- The four little-endian bytes of a 32-bit value. -/
def le32 (v : Nat) : List Nat := [v % 256, v / 256 % 256, v / 65536 % 256, v / 16777216 % 256]

/-- The four bytes of a `pid_t` (a 32-bit int). -/
def pidBytes (pid : Int) : List Nat := le32 (pid % 4294967296).toNat

/-- A freshly `malloc`ed request after the common header/body assignments
every builder in netif.c performs: sequence number 1, type `RTM_NEWLINK`,
length `NLMSG_LENGTH(sizeof(struct ifinfomsg))`, the given flags, family
`AF_UNSPEC`.  Unassigned fields and bytes are modelled as zero. -/
def newReq (flags : Nat) : Nlmsg where
  nlmsg_len := NLMSG_LENGTH ifinfomsgSize
  nlmsg_type := RTM_NEWLINK
  nlmsg_flags := flags
  nlmsg_seq := 1
  ifi_family := AF_UNSPEC
  ifi_index := 0
  ifi_flags := 0
  ifi_change := 0
  mem := fun _ => 0

/-- The request built by `if_up` (netif.c lines 199-211): flags
request|ack, interface index as given, `ifi_flags` and `ifi_change` both
`IFF_UP`, no attributes. -/
def if_up_req (if_index : Nat) : Nlmsg :=
  { newReq (Nat.lor NLM_F_REQUEST NLM_F_ACK) with
      ifi_index := if_index, ifi_flags := IFF_UP, ifi_change := IFF_UP }

/-- The request built by `move_and_rename_if` (netif.c lines 222-234):
flags request|ack, the interface index, then `IFLA_NET_NS_PID` with the
target pid and `IFLA_IFNAME` with the new name (including its NUL). -/
def move_and_rename_req (pid : Int) (if_index : Nat) (new_name : String) : Nlmsg :=
  let req := { newReq (Nat.lor NLM_F_REQUEST NLM_F_ACK) with ifi_index := if_index }
  let req := rtattr_append req IFLA_NET_NS_PID (pidBytes pid)
  rtattr_append req IFLA_IFNAME (strBytes new_name ++ [0])

/-- The request built by `create_macvlan` (netif.c lines 246-266): flags
request|create|excl|ack; a nested `IFLA_LINKINFO` holding only
`IFLA_INFO_KIND "macvlan"` (8 bytes with NUL), then `IFLA_LINK` with the
master index and `IFLA_IFNAME` with the transient name. -/
def create_macvlan_req (master : Nat) (name : String) : Nlmsg :=
  let req := newReq (Nat.lor (Nat.lor (Nat.lor NLM_F_REQUEST NLM_F_CREATE) NLM_F_EXCL) NLM_F_ACK)
  let p := rtattr_start_nested req IFLA_LINKINFO
  let req := rtattr_append p.1 IFLA_INFO_KIND (strBytes "macvlan" ++ [0])
  let req := rtattr_end_nested req p.2
  let req := rtattr_append req IFLA_LINK (le32 master)
  rtattr_append req IFLA_IFNAME (strBytes name ++ [0])

/-- The request built by `create_veth_pair` (netif.c lines 278-309): flags
request|create|excl|ack; `IFLA_LINKINFO` nesting `IFLA_INFO_KIND "veth"`
(5 bytes with NUL) and a nested `IFLA_INFO_DATA` nesting `VETH_INFO_PEER`;
inside the peer, `nlmsg_len` is advanced by `sizeof(struct ifinfomsg)`
(the embedded link-info body) before the peer's `IFLA_IFNAME`; the three
nested attributes are closed innermost-first, then the outward end's
`IFLA_IFNAME` is appended. -/
def create_veth_pair_req (name_out name_in : String) : Nlmsg :=
  let req := newReq (Nat.lor (Nat.lor (Nat.lor NLM_F_REQUEST NLM_F_CREATE) NLM_F_EXCL) NLM_F_ACK)
  let pInfo := rtattr_start_nested req IFLA_LINKINFO
  let req := rtattr_append pInfo.1 IFLA_INFO_KIND (strBytes "veth" ++ [0])
  let pData := rtattr_start_nested req IFLA_INFO_DATA
  let pPeer := rtattr_start_nested pData.1 VETH_INFO_PEER
  let req := { pPeer.1 with nlmsg_len := pPeer.1.nlmsg_len + ifinfomsgSize }
  let req := rtattr_append req IFLA_IFNAME (strBytes name_in ++ [0])
  let req := rtattr_end_nested req pPeer.2
  let req := rtattr_end_nested req pData.2
  let req := rtattr_end_nested req pInfo.2
  rtattr_append req IFLA_IFNAME (strBytes name_out ++ [0])

/-- Decode the attribute at offset `off`: its stored `rta_len` and the
payload bytes it covers (`rta_len` minus the 4-byte header). -/
def decodeAttr (mem : Nat → Nat) (off : Nat) : Nat × List Nat :=
  let l := read16 mem off
  (l, readBytes mem (off + 4) (l - 4))

/-- `enum NETIF_TYPE` (netif.c lines 55-57). -/
inductive NetifType where
  | MOVE
  | MACVLAN
  | VETH
deriving DecidableEq

/-- One node of `struct NETIF_LIST` (netif.c lines 59-66), without the
intrusive `next` pointer: the queue is the Lean list itself. -/
structure NetifEntry where
  type : NetifType
  dev : String
  name : String
deriving DecidableEq

/-- Modelled from the spec: `fail_printf` and `sysf_printf` are defined in
printf.h/printf.c, outside this module's source; per the spec's error
policy ("every error is unrecoverable at the point of occurrence and
aborts the entire provisioning sequence immediately") they are modelled
as error values that stop processing at once.  `sysf_printf` after a
failed name lookup ("Error searching for ...") becomes
`interfaceNotFound`; `fail_printf` after a netlink reply of kind
`NLMSG_ERROR` with a negative code becomes `netlinkRejected` carrying the
negated error number — exactly the argument the C passes to `strerror`
for the human-readable message. -/
inductive NlErr where
  | interfaceNotFound (name : String)
  | netlinkRejected (code : Int)
deriving DecidableEq

/-- The kernel-side environment the code runs against: `lookup` models
`if_nametoindex` (0 = no such interface), and `replies n` models the
`(nlmsg_type, nlmsgerr.error)` fields of the reply received for the n-th
netlink exchange of the run (transport itself assumed to succeed). -/
structure Env where
  lookup : String → Nat
  replies : Nat → Nat × Int

/-- Observable events of a run: a name lookup with its result, a request
handed to `nl_send`, and an invocation of `move_and_rename_if` with the
resolved index, target pid and final name. -/
inductive Ev where
  | lookup (name : String) (res : Nat)
  | sent (req : Nlmsg)
  | moveRename (if_index : Nat) (pid : Int) (new_name : String)

/-- Run state: number of exchanges performed so far and the event trace. -/
structure St where
  count : Nat
  trace : List Ev

/-- The initial run state. -/
def initSt : St := ⟨0, []⟩

/-- The response check shared verbatim by `if_up`, `move_and_rename_if`,
`create_macvlan` and `create_veth_pair`:
`if (hdr.nlmsg_type == NLMSG_ERROR) { if (msg.err.error < 0) fail... }`. -/
def checkResponse (ty : Nat) (e : Int) : Except NlErr Unit :=
  if ty = NLMSG_ERROR then
    if e < 0 then .error (.netlinkRejected (-e)) else .ok ()
  else .ok ()

/-- One `nl_send`/`nl_recv` exchange followed by the response check: logs
the sent request, consumes the next reply from the environment, and either
succeeds or aborts with the check's error. -/
def doExchange (env : Env) (s : St) (req : Nlmsg) : St × Option NlErr :=
  let reply := env.replies s.count
  let s' : St := ⟨s.count + 1, s.trace ++ [.sent req]⟩
  match checkResponse reply.1 reply.2 with
  | .ok _ => (s', none)
  | .error e => (s', some e)

/-- `if_up` (netif.c lines 199-220): build the bring-up request and
exchange it. -/
def if_up (env : Env) (s : St) (if_index : Nat) : St × Option NlErr :=
  doExchange env s (if_up_req if_index)

/-- `move_and_rename_if` (netif.c lines 222-244): build the move/rename
request and exchange it. -/
def move_and_rename_if (env : Env) (s : St) (pid : Int) (if_index : Nat)
    (new_name : String) : St × Option NlErr :=
  doExchange env { s with trace := s.trace ++ [.moveRename if_index pid new_name] }
    (move_and_rename_req pid if_index new_name)

/-- `create_macvlan` (netif.c lines 246-276). -/
def create_macvlan (env : Env) (s : St) (master : Nat) (name : String) : St × Option NlErr :=
  doExchange env s (create_macvlan_req master name)

/-- `create_veth_pair` (netif.c lines 278-319). -/
def create_veth_pair (env : Env) (s : St) (name_out name_in : String) : St × Option NlErr :=
  doExchange env s (create_veth_pair_req name_out name_in)

/-- The transient name `asprintf(&name, "pflask-%d", pid)`. -/
def transientName (pid : Int) : String := "pflask-" ++ toString pid

/-- The body of `do_netif`'s processing loop for one action (netif.c lines
133-175): resolve or create the kernel interface per the action's type,
then call `move_and_rename_if`.  For `MACVLAN` the master lookup is
checked (`sysf_printf` on 0) but the re-lookup of the transient name is
not; for `VETH` the only lookup (of the transient name) is unchecked; for
`MOVE` the source lookup is checked. -/
def processOne (env : Env) (pid : Int) (s : St) (a : NetifEntry) : St × Option NlErr :=
  match a.type with
  | .MOVE =>
      let idx := env.lookup a.dev
      let s := { s with trace := s.trace ++ [.lookup a.dev idx] }
      if idx = 0 then (s, some (.interfaceNotFound a.dev))
      else move_and_rename_if env s pid idx a.name
  | .MACVLAN =>
      let nm := transientName pid
      let idx := env.lookup a.dev
      let s := { s with trace := s.trace ++ [.lookup a.dev idx] }
      if idx = 0 then (s, some (.interfaceNotFound a.dev))
      else
        match create_macvlan env s idx nm with
        | (s, some e) => (s, some e)
        | (s, none) =>
            let idx2 := env.lookup nm
            let s := { s with trace := s.trace ++ [.lookup nm idx2] }
            move_and_rename_if env s pid idx2 a.name
  | .VETH =>
      let nm := transientName pid
      match create_veth_pair env s a.dev nm with
      | (s, some e) => (s, some e)
      | (s, none) =>
          let idx2 := env.lookup nm
          let s := { s with trace := s.trace ++ [.lookup nm idx2] }
          move_and_rename_if env s pid idx2 a.name

/-- `do_netif`'s second while loop over the reversed list, stopping at the
first error (`fail_printf`/`sysf_printf` exit the process there). -/
def processList (env : Env) (pid : Int) (s : St) : List NetifEntry → St × Option NlErr
  | [] => (s, none)
  | a :: rest =>
      match processOne env pid s a with
      | (s', none) => processList env pid s' rest
      | (s', some e) => (s', some e)

/-- `do_netif`'s first while loop (netif.c lines 126-131): pop every node
off `netifs` and push it onto `i`, reversing the list and emptying the
global queue. -/
def reverseLoop : List NetifEntry → List NetifEntry → List NetifEntry
  | [], acc => acc
  | x :: xs, acc => reverseLoop xs (x :: acc)

/-- `add_netif` (netif.c lines 183-197): prepend a new node to the global
queue. -/
def add_netif (queue : List NetifEntry) (type : NetifType) (dev name : String) :
    List NetifEntry :=
  ⟨type, dev, name⟩ :: queue

/-- `do_netif` (netif.c lines 120-176): empty the queue into a reversed
working list, then process it; returns the queue's new (empty) value
together with the run's final state and outcome. -/
def do_netif (env : Env) (pid : Int) (queue : List NetifEntry) :
    List NetifEntry × St × Option NlErr :=
  ([], processList env pid initSt (reverseLoop queue []))

/-- `setup_loopback` (netif.c lines 178-181): a single `if_up` of index 1
in the current namespace. -/
def setup_loopback (env : Env) : St × Option NlErr :=
  if_up env initSt 1

/-- The final names carried by the `moveRename` events of a trace, in
order. -/
def moveRenameNames (tr : List Ev) : List String :=
  tr.filterMap fun e =>
    match e with
    | .moveRename _ _ n => some n
    | _ => none

/-- A request whose attribute region has grown to 9212 bytes (4 short of
`NLMSG_GOOD_SIZE`), the state repeated appends produce just before the
capacity is crossed. -/
def nearFullReq : Nlmsg := { newReq 5 with nlmsg_len := 9212 }

/-- One call in a message-construction sequence: `rtattr_append`,
`rtattr_start_nested`, or `rtattr_end_nested` of the most recently opened
(not yet closed) nested attribute — the strict LIFO discipline the
builders in netif.c follow. -/
inductive BOp where
  | app (attr : Nat) (d : List Nat)
  | startN (attr : Nat)
  | endN

/-- Run a sequence of builder calls, keeping the stack of open nested
cursors; `endN` closes the innermost open cursor (LIFO). -/
def execOps : Nlmsg → List Nat → List BOp → Nlmsg × List Nat
  | m, st, [] => (m, st)
  | m, st, .app a d :: ops => execOps (rtattr_append m a d) st ops
  | m, st, .startN a :: ops =>
      execOps (rtattr_start_nested m a).1 ((rtattr_start_nested m a).2 :: st) ops
  | m, st, .endN :: ops =>
      match st with
      | [] => execOps m [] ops
      | c :: rest => execOps (rtattr_end_nested m c) rest ops

/-- The veth-shaped builder sequence: three nested openings (depth 3,
matching link-info → info-data → peer) with attributes inside. -/
def vethShapeOps : List BOp :=
  [.startN IFLA_LINKINFO, .app IFLA_INFO_KIND [118, 101, 116, 104, 0],
    .startN IFLA_INFO_DATA, .startN VETH_INFO_PEER, .app IFLA_IFNAME [1, 0]]

/-- The flag set shared by `create_macvlan` and `create_veth_pair`:
request|create|excl|ack. -/
def createFlags : Nat :=
  Nat.lor (Nat.lor (Nat.lor NLM_F_REQUEST NLM_F_CREATE) NLM_F_EXCL) NLM_F_ACK

/-- The veth request just after opening `VETH_INFO_PEER`: link-info
opened, kind written, info-data opened, peer opened (proof-naming of an
intermediate state of `create_veth_pair_req`). -/
def vethInner : Nlmsg :=
  rtattr_append (rtattr_append (rtattr_append (rtattr_append (newReq createFlags)
    IFLA_LINKINFO []) IFLA_INFO_KIND (strBytes "veth" ++ [0])) IFLA_INFO_DATA [])
    VETH_INFO_PEER []

/-- The veth request after `nlmsg_len += sizeof(struct ifinfomsg)`: the
embedded peer link-info body is reserved. -/
def vethPeerOpen : Nlmsg := { vethInner with nlmsg_len := vethInner.nlmsg_len + ifinfomsgSize }

/-- The veth request after the peer's `IFLA_IFNAME`. -/
def vethAfterName (name_in : String) : Nlmsg :=
  rtattr_append vethPeerOpen IFLA_IFNAME (strBytes name_in ++ [0])

/-- The veth request after the three `rtattr_end_nested` calls (peer at
cursor 52, info-data at cursor 48, link-info at cursor 32). -/
def vethClosed (name_in : String) : Nlmsg :=
  rtattr_end_nested (rtattr_end_nested (rtattr_end_nested (vethAfterName name_in) 52) 48) 32

/-- The macvlan request just before `rtattr_end_nested`: link-info opened
at cursor 32 and the kind attribute written. -/
def macvlanOpen : Nlmsg :=
  rtattr_append (rtattr_append (newReq createFlags) IFLA_LINKINFO [])
    IFLA_INFO_KIND (strBytes "macvlan" ++ [0])

/-- A kernel environment in which every name resolves (to index 2) and
every request is acknowledged. -/
def okEnv : Env := ⟨fun _ => 2, fun _ => (3, 0)⟩

/-- The end-to-end registration sequence of the spec's scenario. -/
def fifoRegs : List NetifEntry :=
  [⟨.MOVE, "eth0", "wan"⟩, ⟨.MACVLAN, "eth0", "mv0"⟩, ⟨.VETH, "veth-out", "veth-in"⟩]

/-- An environment whose kernel rejects every request with code -1
(operation not permitted) while names resolve. -/
def errEnv : Env := ⟨fun _ => 1, fun _ => (NLMSG_ERROR, -1)⟩

/-- An environment in which no name resolves. -/
def noneEnv : Env := ⟨fun _ => 0, fun _ => (3, 0)⟩

/-- An environment in which every name resolves to index 3 except the
transient name `pflask-4242`, which does not resolve, and the kernel
acknowledges every request. -/
def staleEnv : Env :=
  ⟨fun nm => if nm = transientName 4242 then 0 else 3, fun _ => (3, 0)⟩

theorem upd_same (mem : Nat → Nat) (o v : Nat) : upd mem o v o = v := by
  simp [upd]

theorem upd_other (mem : Nat → Nat) (o v x : Nat) (h : x ≠ o) : upd mem o v x = mem x := by
  simp [upd, h]

theorem write16_point_other (mem : Nat → Nat) (o v x : Nat) (h1 : x ≠ o) (h2 : x ≠ o + 1) :
    write16 mem o v x = mem x := by
  simp [write16, upd, h1, h2]

theorem write16_read_same (mem : Nat → Nat) (o v : Nat) (h : v < 65536) :
    read16 (write16 mem o v) o = v := by
  have h1 : (o : Nat) ≠ o + 1 := by omega
  simp [read16, write16, upd, h1]
  omega

theorem read16_write16_other (mem : Nat → Nat) (o v x : Nat) (h : x + 1 < o ∨ o + 1 < x) :
    read16 (write16 mem o v) x = read16 mem x := by
  have h1 : x ≠ o := by omega
  have h2 : x ≠ o + 1 := by omega
  have h3 : x + 1 ≠ o := by omega
  have h4 : x + 1 ≠ o + 1 := by omega
  simp only [read16]
  rw [write16_point_other mem o v x h1 h2, write16_point_other mem o v (x + 1) h3 h4]

theorem writeBytes_point_lt : ∀ (bs : List Nat) (mem : Nat → Nat) (o x : Nat), x < o →
    writeBytes mem o bs x = mem x
  | [], _, _, _, _ => rfl
  | b :: bs, mem, o, x, h => by
      show writeBytes (upd mem o (b % 256)) (o + 1) bs x = mem x
      rw [writeBytes_point_lt bs _ (o + 1) x (by omega)]
      exact upd_other mem o (b % 256) x (by omega)

theorem writeBytes_point_ge : ∀ (bs : List Nat) (mem : Nat → Nat) (o x : Nat),
    o + bs.length ≤ x → writeBytes mem o bs x = mem x
  | [], _, _, _, _ => rfl
  | b :: bs, mem, o, x, h => by
      show writeBytes (upd mem o (b % 256)) (o + 1) bs x = mem x
      have hl : (b :: bs).length = bs.length + 1 := rfl
      rw [writeBytes_point_ge bs _ (o + 1) x (by omega)]
      exact upd_other mem o (b % 256) x (by omega)

theorem writeBytes_point_in : ∀ (bs : List Nat) (mem : Nat → Nat) (o i : Nat)
    (h : i < bs.length), writeBytes mem o bs (o + i) = bs[i] % 256
  | b :: bs, mem, o, 0, _ => by
      show writeBytes (upd mem o (b % 256)) (o + 1) bs (o + 0) = (b :: bs)[0] % 256
      rw [writeBytes_point_lt bs _ (o + 1) (o + 0) (by omega)]
      simp [upd]
  | b :: bs, mem, o, i + 1, h => by
      show writeBytes (upd mem o (b % 256)) (o + 1) bs (o + (i + 1)) = (b :: bs)[i + 1] % 256
      have hi : i < bs.length := by
        have := h
        simp only [List.length_cons] at this
        omega
      have harg : o + (i + 1) = (o + 1) + i := by omega
      rw [harg, writeBytes_point_in bs _ (o + 1) i hi]
      simp

theorem read16_writeBytes_lt (bs : List Nat) (mem : Nat → Nat) (o x : Nat) (h : x + 1 < o) :
    read16 (writeBytes mem o bs) x = read16 mem x := by
  simp only [read16]
  rw [writeBytes_point_lt bs mem o x (by omega), writeBytes_point_lt bs mem o (x + 1) (by omega)]

theorem readBytes_writeBytes : ∀ (bs : List Nat) (mem : Nat → Nat) (o : Nat),
    readBytes (writeBytes mem o bs) o bs.length = bs.map (fun b => b % 256)
  | [], _, _ => rfl
  | b :: bs, mem, o => by
      show readBytes (writeBytes (upd mem o (b % 256)) (o + 1) bs) o (bs.length + 1)
        = (b % 256) :: bs.map (fun b => b % 256)
      rw [readBytes]
      rw [writeBytes_point_lt bs _ (o + 1) o (by omega), upd_same,
        readBytes_writeBytes bs _ (o + 1)]

theorem NLMSG_ALIGN_le (n : Nat) : n ≤ NLMSG_ALIGN n := by
  unfold NLMSG_ALIGN; omega

theorem NLMSG_ALIGN_le_add (n : Nat) : NLMSG_ALIGN n ≤ n + 3 := by
  unfold NLMSG_ALIGN; omega

theorem NLMSG_ALIGN_dvd (n : Nat) : 4 ∣ NLMSG_ALIGN n := ⟨(n + 3) / 4, Nat.mul_comm _ _⟩

theorem NLMSG_ALIGN_eq (n : Nat) (h : 4 ∣ n) : NLMSG_ALIGN n = n := by
  unfold NLMSG_ALIGN; omega

theorem RTA_LENGTH_eq (l : Nat) : RTA_LENGTH l = 4 + l := rfl

theorem end_nested_len (m : Nlmsg) (c : Nat) : (rtattr_end_nested m c).nlmsg_len = m.nlmsg_len := rfl

theorem append_len (m : Nlmsg) (attr : Nat) (d : List Nat) :
    (rtattr_append m attr d).nlmsg_len = NLMSG_ALIGN m.nlmsg_len + RTA_ALIGN (RTA_LENGTH d.length) := rfl

theorem read16_append_lt (m : Nlmsg) (attr : Nat) (d : List Nat) (x : Nat)
    (h : x + 1 < NLMSG_ALIGN m.nlmsg_len) :
    read16 (rtattr_append m attr d).mem x = read16 m.mem x := by
  simp only [rtattr_append]
  rw [read16_writeBytes_lt _ _ _ _ (by omega),
    read16_write16_other _ _ _ _ (Or.inl (by omega)),
    read16_write16_other _ _ _ _ (Or.inl (by omega))]

theorem read16_append_len (m : Nlmsg) (attr : Nat) (d : List Nat)
    (h : RTA_LENGTH d.length < 65536) :
    read16 (rtattr_append m attr d).mem (NLMSG_ALIGN m.nlmsg_len) = RTA_LENGTH d.length := by
  simp only [rtattr_append]
  rw [read16_writeBytes_lt _ _ _ _ (by omega), write16_read_same _ _ _ h]

theorem read16_append_type (m : Nlmsg) (attr : Nat) (d : List Nat)
    (h : attr < 65536) :
    read16 (rtattr_append m attr d).mem (NLMSG_ALIGN m.nlmsg_len + 2) = attr := by
  simp only [rtattr_append]
  rw [read16_writeBytes_lt _ _ _ _ (by omega),
    read16_write16_other _ _ _ _ (Or.inr (by omega)),
    write16_read_same _ _ _ h]

theorem read16_end_nested_other (m : Nlmsg) (c x : Nat) (h : x + 1 < c ∨ c + 1 < x) :
    read16 (rtattr_end_nested m c).mem x = read16 m.mem x := by
  simp only [rtattr_end_nested]
  exact read16_write16_other _ _ _ _ h

theorem read16_end_nested_same (m : Nlmsg) (c : Nat)
    (h : NLMSG_ALIGN m.nlmsg_len - c < 65536) :
    read16 (rtattr_end_nested m c).mem c = NLMSG_ALIGN m.nlmsg_len - c := by
  simp only [rtattr_end_nested]
  exact write16_read_same _ _ _ h

/-- C3: appending a payload of length `L` to a message whose total length
is 4-byte aligned stores a length field equal to header size + `L`, writes
the `L` payload bytes unchanged right after the header (so decoding the
attribute returns exactly those bytes), and advances the total length by
header size + `L` rounded up to the next multiple of 4 — afterward the
total length is the offset one past the padded attribute. -/
theorem C3_append_roundtrip (m : Nlmsg) (attr : Nat) (d : List Nat)
    (halign : 4 ∣ m.nlmsg_len) (hlen : 4 + d.length < 65536)
    (hbytes : ∀ b ∈ d, b < 256) :
    read16 (rtattr_append m attr d).mem m.nlmsg_len = 4 + d.length ∧
    readBytes (rtattr_append m attr d).mem (m.nlmsg_len + 4) d.length = d ∧
    decodeAttr (rtattr_append m attr d).mem m.nlmsg_len = (4 + d.length, d) ∧
    (rtattr_append m attr d).nlmsg_len = m.nlmsg_len + NLMSG_ALIGN (4 + d.length) := by
  have ha : NLMSG_ALIGN m.nlmsg_len = m.nlmsg_len := NLMSG_ALIGN_eq _ halign
  have hrl : RTA_LENGTH d.length = 4 + d.length := RTA_LENGTH_eq _
  have h1 : read16 (rtattr_append m attr d).mem m.nlmsg_len = 4 + d.length := by
    have := read16_append_len m attr d (by rw [hrl]; exact hlen)
    rw [ha, hrl] at this
    exact this
  have h2 : readBytes (rtattr_append m attr d).mem (m.nlmsg_len + 4) d.length = d := by
    have hm : (rtattr_append m attr d).mem
        = writeBytes (write16 (write16 m.mem (NLMSG_ALIGN m.nlmsg_len + 2) attr)
            (NLMSG_ALIGN m.nlmsg_len) (RTA_LENGTH d.length))
            (NLMSG_ALIGN m.nlmsg_len + 4) d := rfl
    rw [hm, ha, readBytes_writeBytes]
    calc d.map (fun b => b % 256) = d.map id := by
          refine List.map_congr_left ?_
          intro b hb
          simpa using Nat.mod_eq_of_lt (hbytes b hb)
      _ = d := List.map_id d
  refine ⟨h1, h2, ?_, ?_⟩
  · simp only [decodeAttr, h1]
    have : 4 + d.length - 4 = d.length := by omega
    rw [this, h2]
  · rw [append_len, ha, hrl]
    rfl

/-- C3 witness: the round-trip at a concrete message and payload. -/
theorem C3_append_roundtrip_witness :
    4 ∣ (newReq 5).nlmsg_len ∧
    (read16 (rtattr_append (newReq 5) IFLA_IFNAME [7, 8, 9]).mem (newReq 5).nlmsg_len
        = 4 + [7, 8, 9].length ∧
      readBytes (rtattr_append (newReq 5) IFLA_IFNAME [7, 8, 9]).mem
          ((newReq 5).nlmsg_len + 4) [7, 8, 9].length = [7, 8, 9] ∧
      decodeAttr (rtattr_append (newReq 5) IFLA_IFNAME [7, 8, 9]).mem (newReq 5).nlmsg_len
        = (4 + [7, 8, 9].length, [7, 8, 9]) ∧
      (rtattr_append (newReq 5) IFLA_IFNAME [7, 8, 9]).nlmsg_len
        = (newReq 5).nlmsg_len + NLMSG_ALIGN (4 + [7, 8, 9].length)) :=
  ⟨by decide,
    C3_append_roundtrip (newReq 5) IFLA_IFNAME [7, 8, 9] (by decide) (by decide) (by decide)⟩

/-- C2 counterexample: `rtattr_append` has no capacity guard at all.
Appending an 8-byte payload to a request already at total length 9212
pushes the total length to 9224, past the fixed capacity
`NLMSG_GOOD_SIZE = 9216`, and the append succeeds — payload bytes are
written at offsets beyond the capacity (offset 9219 holds the payload's
fourth byte) instead of the call failing with any `EncodingOverflow`-style
error (the code has no such error and no check against
`NLMSG_GOOD_SIZE`). -/
theorem C2_counterexample :
    (rtattr_append nearFullReq IFLA_IFNAME [1, 2, 3, 4, 5, 6, 7, 8]).nlmsg_len = 9224 ∧
    NLMSG_GOOD_SIZE = 9216 ∧
    NLMSG_GOOD_SIZE <
      (rtattr_append nearFullReq IFLA_IFNAME [1, 2, 3, 4, 5, 6, 7, 8]).nlmsg_len ∧
    (rtattr_append nearFullReq IFLA_IFNAME [1, 2, 3, 4, 5, 6, 7, 8]).mem 9219 = 4 := by
  refine ⟨rfl, rfl, by decide, ?_⟩
  have hm : (rtattr_append nearFullReq IFLA_IFNAME [1, 2, 3, 4, 5, 6, 7, 8]).mem 9219
      = writeBytes (write16 (write16 nearFullReq.mem 9214 IFLA_IFNAME) 9212 12)
          9216 [1, 2, 3, 4, 5, 6, 7, 8] 9219 := rfl
  rw [hm]
  have h9 : (9219 : Nat) = 9216 + 3 := by omega
  rw [h9, writeBytes_point_in [1, 2, 3, 4, 5, 6, 7, 8] _ 9216 3 (by simp)]
  simp

/-- C2 amended: `rtattr_append` performs no capacity check.  For any
message with an aligned total length and any byte payload it writes the
attribute and advances `nlmsg_len` by the padded size unconditionally —
even when the result exceeds `NLMSG_GOOD_SIZE`, the payload is written
(past the buffer's end) rather than the call failing. -/
theorem C2_append_unchecked (m : Nlmsg) (attr : Nat) (d : List Nat)
    (halign : 4 ∣ m.nlmsg_len) (hbytes : ∀ b ∈ d, b < 256) :
    (rtattr_append m attr d).nlmsg_len = m.nlmsg_len + NLMSG_ALIGN (4 + d.length) ∧
    readBytes (rtattr_append m attr d).mem (m.nlmsg_len + 4) d.length = d := by
  have ha : NLMSG_ALIGN m.nlmsg_len = m.nlmsg_len := NLMSG_ALIGN_eq _ halign
  constructor
  · rw [append_len, ha, RTA_LENGTH_eq]
    rfl
  · have hm : (rtattr_append m attr d).mem
        = writeBytes (write16 (write16 m.mem (NLMSG_ALIGN m.nlmsg_len + 2) attr)
            (NLMSG_ALIGN m.nlmsg_len) (RTA_LENGTH d.length))
            (NLMSG_ALIGN m.nlmsg_len + 4) d := rfl
    rw [hm, ha, readBytes_writeBytes]
    calc d.map (fun b => b % 256) = d.map id := by
          refine List.map_congr_left ?_
          intro b hb
          simpa using Nat.mod_eq_of_lt (hbytes b hb)
      _ = d := List.map_id d

/-- C2 amended witness: the capacity-crossing append of the counterexample
is accepted and its payload fully written. -/
theorem C2_append_unchecked_witness :
    4 ∣ nearFullReq.nlmsg_len ∧
    ((rtattr_append nearFullReq IFLA_IFNAME [1, 2, 3, 4, 5, 6, 7, 8]).nlmsg_len
        = nearFullReq.nlmsg_len + NLMSG_ALIGN (4 + [1, 2, 3, 4, 5, 6, 7, 8].length) ∧
      readBytes (rtattr_append nearFullReq IFLA_IFNAME [1, 2, 3, 4, 5, 6, 7, 8]).mem
          (nearFullReq.nlmsg_len + 4) [1, 2, 3, 4, 5, 6, 7, 8].length
        = [1, 2, 3, 4, 5, 6, 7, 8]) :=
  ⟨by decide,
    C2_append_unchecked nearFullReq IFLA_IFNAME [1, 2, 3, 4, 5, 6, 7, 8] (by decide)
      (by decide)⟩

theorem execOps_len_dvd : ∀ (ops : List BOp) (m : Nlmsg) (st : List Nat),
    4 ∣ m.nlmsg_len → 4 ∣ (execOps m st ops).1.nlmsg_len
  | [], _, _, h => h
  | .app a d :: ops, m, st, _ => by
      show 4 ∣ (execOps (rtattr_append m a d) st ops).1.nlmsg_len
      exact execOps_len_dvd ops _ st
        (by rw [append_len]; exact Nat.dvd_add (NLMSG_ALIGN_dvd _) (NLMSG_ALIGN_dvd _))
  | .startN a :: ops, m, st, _ => by
      show 4 ∣ (execOps (rtattr_start_nested m a).1 ((rtattr_start_nested m a).2 :: st) ops).1.nlmsg_len
      exact execOps_len_dvd ops _ _
        (by
          show 4 ∣ (rtattr_append m a []).nlmsg_len
          rw [append_len]
          exact Nat.dvd_add (NLMSG_ALIGN_dvd _) (NLMSG_ALIGN_dvd _))
  | .endN :: ops, m, [], h => by
      show 4 ∣ (execOps m [] ops).1.nlmsg_len
      exact execOps_len_dvd ops m [] h
  | .endN :: ops, m, c :: rest, h => by
      show 4 ∣ (execOps (rtattr_end_nested m c) rest ops).1.nlmsg_len
      exact execOps_len_dvd ops _ rest (by rw [end_nested_len]; exact h)

/-- C4: for every LIFO-nested sequence of `rtattr_start_nested` /
`rtattr_append` / `rtattr_end_nested` calls on a fresh request (any
nesting depth, so in particular depth 1, 2 and 3), closing the innermost
open nested attribute writes into its length field exactly the byte span
from the attribute's start offset (the cursor `rtattr_start_nested`
returned) to the current buffer end: current total length minus the
cursor offset.  The aligned buffer end coincides with the total length
because every builder call keeps the total length a multiple of 4. -/
theorem C4_end_nested_span (flags : Nat) (ops : List BOp) (c : Nat) (rest : List Nat)
    (_hstack : (execOps (newReq flags) [] ops).2 = c :: rest)
    (hspan : (execOps (newReq flags) [] ops).1.nlmsg_len - c < 65536) :
    read16 (rtattr_end_nested (execOps (newReq flags) [] ops).1 c).mem c
        = (execOps (newReq flags) [] ops).1.nlmsg_len - c ∧
    (rtattr_end_nested (execOps (newReq flags) [] ops).1 c).nlmsg_len
        = (execOps (newReq flags) [] ops).1.nlmsg_len := by
  have hd : 4 ∣ (execOps (newReq flags) [] ops).1.nlmsg_len :=
    execOps_len_dvd ops (newReq flags) [] ⟨8, rfl⟩
  have ha : NLMSG_ALIGN (execOps (newReq flags) [] ops).1.nlmsg_len
      = (execOps (newReq flags) [] ops).1.nlmsg_len := NLMSG_ALIGN_eq _ hd
  constructor
  · have := read16_end_nested_same (execOps (newReq flags) [] ops).1 c (by rw [ha]; exact hspan)
    rw [ha] at this
    exact this
  · exact end_nested_len _ _

/-- C4 witness: at depth 3 (the veth shape) the innermost cursor is 52 and
closing it writes span `total - 52`. -/
theorem C4_end_nested_span_witness :
    (execOps (newReq 5) [] vethShapeOps).2 = 52 :: [48, 32] ∧
    (execOps (newReq 5) [] vethShapeOps).1.nlmsg_len - 52 < 65536 ∧
    read16 (rtattr_end_nested (execOps (newReq 5) [] vethShapeOps).1 52).mem 52
      = (execOps (newReq 5) [] vethShapeOps).1.nlmsg_len - 52 :=
  ⟨by decide, by decide,
    (C4_end_nested_span 5 vethShapeOps 52 [48, 32] (by decide) (by decide)).1⟩

theorem create_veth_pair_req_eq (name_out name_in : String) :
    create_veth_pair_req name_out name_in
      = rtattr_append (vethClosed name_in) IFLA_IFNAME (strBytes name_out ++ [0]) := rfl

theorem create_macvlan_req_eq (master : Nat) (name : String) :
    create_macvlan_req master name
      = rtattr_append (rtattr_append (rtattr_end_nested macvlanOpen 32) IFLA_LINK (le32 master))
          IFLA_IFNAME (strBytes name ++ [0]) := rfl

theorem vethI1_len : (rtattr_append (newReq createFlags) IFLA_LINKINFO []).nlmsg_len = 36 := rfl

theorem vethI2_len : (rtattr_append (rtattr_append (newReq createFlags) IFLA_LINKINFO [])
    IFLA_INFO_KIND (strBytes "veth" ++ [0])).nlmsg_len = 48 := rfl

theorem vethI3_len : (rtattr_append (rtattr_append (rtattr_append (newReq createFlags)
    IFLA_LINKINFO []) IFLA_INFO_KIND (strBytes "veth" ++ [0])) IFLA_INFO_DATA []).nlmsg_len
    = 52 := rfl

theorem vethPeerOpen_len : vethPeerOpen.nlmsg_len = 72 := rfl

theorem vethPeerOpen_mem : vethPeerOpen.mem = vethInner.mem := rfl

theorem vethAfterName_len (name_in : String) :
    (vethAfterName name_in).nlmsg_len
      = 72 + NLMSG_ALIGN ((strBytes name_in).length + 5) := by
  show (rtattr_append vethPeerOpen IFLA_IFNAME (strBytes name_in ++ [0])).nlmsg_len = _
  rw [append_len, vethPeerOpen_len]
  have h1 : NLMSG_ALIGN 72 = 72 := by decide
  have h2 : (strBytes name_in ++ [0]).length = (strBytes name_in).length + 1 := by simp
  rw [h1, h2, RTA_LENGTH_eq]
  have h3 : 4 + ((strBytes name_in).length + 1) = (strBytes name_in).length + 5 := by omega
  rw [h3]
  rfl

theorem vethClosed_len (name_in : String) :
    (vethClosed name_in).nlmsg_len = 72 + NLMSG_ALIGN ((strBytes name_in).length + 5) := by
  show (rtattr_end_nested (rtattr_end_nested (rtattr_end_nested (vethAfterName name_in) 52)
    48) 32).nlmsg_len = _
  rw [end_nested_len, end_nested_len, end_nested_len, vethAfterName_len]

/-- C5: `create_veth_pair` encodes the peer record as a `VETH_INFO_PEER`
attribute (header at offset 52) nested inside `IFLA_INFO_DATA` (offset 48)
inside `IFLA_LINKINFO` (offset 32) — one level deeper than macvlan, whose
single `IFLA_LINKINFO` nesting spans only 16 bytes (its kind attribute).
Inside the peer it reserves an embedded `ifinfomsg` body (16 bytes) by
advancing the total length, so the peer's `IFLA_IFNAME` header lands at
offset 72 = 52 + 4 + 16, and the peer's back-patched length equals
header (4) + embedded body (16) + the padded name attribute; the spans
back-patched at 48 and 32 each add exactly their own header (plus, for
link-info, the 12-byte padded kind attribute), so peer ⊂ info-data ⊂
link-info. -/
theorem C5_veth_peer_nesting (name_out name_in : String) (master : Nat) (name : String)
    (hin : (strBytes name_in).length < 65000) :
    read16 (create_veth_pair_req name_out name_in).mem 34 = IFLA_LINKINFO ∧
    read16 (create_veth_pair_req name_out name_in).mem 50 = IFLA_INFO_DATA ∧
    read16 (create_veth_pair_req name_out name_in).mem 54 = VETH_INFO_PEER ∧
    read16 (create_veth_pair_req name_out name_in).mem 74 = IFLA_IFNAME ∧
    read16 (create_veth_pair_req name_out name_in).mem 52
      = 4 + ifinfomsgSize + NLMSG_ALIGN ((strBytes name_in).length + 5) ∧
    read16 (create_veth_pair_req name_out name_in).mem 72
      = 4 + ((strBytes name_in).length + 1) ∧
    read16 (create_veth_pair_req name_out name_in).mem 48
      = 4 + read16 (create_veth_pair_req name_out name_in).mem 52 ∧
    read16 (create_veth_pair_req name_out name_in).mem 32
      = 4 + 12 + read16 (create_veth_pair_req name_out name_in).mem 48 ∧
    read16 (create_macvlan_req master name).mem 32 = 16 := by
  have hA8 : 8 ≤ NLMSG_ALIGN ((strBytes name_in).length + 5) := by
    unfold NLMSG_ALIGN; omega
  have hA3 : NLMSG_ALIGN ((strBytes name_in).length + 5) ≤ (strBytes name_in).length + 8 :=
    NLMSG_ALIGN_le_add _
  have hdv : 4 ∣ 72 + NLMSG_ALIGN ((strBytes name_in).length + 5) :=
    Nat.dvd_add ⟨18, rfl⟩ (NLMSG_ALIGN_dvd _)
  have hcl : NLMSG_ALIGN (vethClosed name_in).nlmsg_len
      = 72 + NLMSG_ALIGN ((strBytes name_in).length + 5) := by
    rw [vethClosed_len]; exact NLMSG_ALIGN_eq _ hdv
  have hAf : NLMSG_ALIGN (vethAfterName name_in).nlmsg_len
      = 72 + NLMSG_ALIGN ((strBytes name_in).length + 5) := by
    rw [vethAfterName_len]; exact NLMSG_ALIGN_eq _ hdv
  have hP : NLMSG_ALIGN vethPeerOpen.nlmsg_len = 72 := by
    rw [vethPeerOpen_len]; decide
  have h34 : read16 (create_veth_pair_req name_out name_in).mem 34 = IFLA_LINKINFO := by
    rw [create_veth_pair_req_eq,
      read16_append_lt _ _ _ 34 (by rw [hcl]; omega)]
    unfold vethClosed
    rw [read16_end_nested_other _ 32 34 (Or.inr (by omega)),
      read16_end_nested_other _ 48 34 (Or.inl (by omega)),
      read16_end_nested_other _ 52 34 (Or.inl (by omega))]
    unfold vethAfterName
    rw [read16_append_lt _ _ _ 34 (by rw [hP]; omega), vethPeerOpen_mem]
    unfold vethInner
    rw [read16_append_lt _ _ _ 34 (by rw [vethI3_len]; decide),
      read16_append_lt _ _ _ 34 (by rw [vethI2_len]; decide),
      read16_append_lt _ _ _ 34 (by rw [vethI1_len]; decide)]
    have ht := read16_append_type (newReq createFlags) IFLA_LINKINFO [] (by decide)
    have hofs : NLMSG_ALIGN (newReq createFlags).nlmsg_len + 2 = 34 := by decide
    rw [hofs] at ht
    exact ht
  have h50 : read16 (create_veth_pair_req name_out name_in).mem 50 = IFLA_INFO_DATA := by
    rw [create_veth_pair_req_eq,
      read16_append_lt _ _ _ 50 (by rw [hcl]; omega)]
    unfold vethClosed
    rw [read16_end_nested_other _ 32 50 (Or.inr (by omega)),
      read16_end_nested_other _ 48 50 (Or.inr (by omega)),
      read16_end_nested_other _ 52 50 (Or.inl (by omega))]
    unfold vethAfterName
    rw [read16_append_lt _ _ _ 50 (by rw [hP]; omega), vethPeerOpen_mem]
    unfold vethInner
    rw [read16_append_lt _ _ _ 50 (by rw [vethI3_len]; decide)]
    have ht := read16_append_type (rtattr_append (rtattr_append (newReq createFlags)
      IFLA_LINKINFO []) IFLA_INFO_KIND (strBytes "veth" ++ [0])) IFLA_INFO_DATA [] (by decide)
    have hofs : NLMSG_ALIGN (rtattr_append (rtattr_append (newReq createFlags)
        IFLA_LINKINFO []) IFLA_INFO_KIND (strBytes "veth" ++ [0])).nlmsg_len + 2 = 50 := by
      rw [vethI2_len]; decide
    rw [hofs] at ht
    exact ht
  have h54 : read16 (create_veth_pair_req name_out name_in).mem 54 = VETH_INFO_PEER := by
    rw [create_veth_pair_req_eq,
      read16_append_lt _ _ _ 54 (by rw [hcl]; omega)]
    unfold vethClosed
    rw [read16_end_nested_other _ 32 54 (Or.inr (by omega)),
      read16_end_nested_other _ 48 54 (Or.inr (by omega)),
      read16_end_nested_other _ 52 54 (Or.inr (by omega))]
    unfold vethAfterName
    rw [read16_append_lt _ _ _ 54 (by rw [hP]; omega), vethPeerOpen_mem]
    unfold vethInner
    have ht := read16_append_type (rtattr_append (rtattr_append (rtattr_append
      (newReq createFlags) IFLA_LINKINFO []) IFLA_INFO_KIND (strBytes "veth" ++ [0]))
      IFLA_INFO_DATA []) VETH_INFO_PEER [] (by decide)
    have hofs : NLMSG_ALIGN (rtattr_append (rtattr_append (rtattr_append (newReq createFlags)
        IFLA_LINKINFO []) IFLA_INFO_KIND (strBytes "veth" ++ [0]))
        IFLA_INFO_DATA []).nlmsg_len + 2 = 54 := by
      rw [vethI3_len]; decide
    rw [hofs] at ht
    exact ht
  have h74 : read16 (create_veth_pair_req name_out name_in).mem 74 = IFLA_IFNAME := by
    rw [create_veth_pair_req_eq,
      read16_append_lt _ _ _ 74 (by rw [hcl]; omega)]
    unfold vethClosed
    rw [read16_end_nested_other _ 32 74 (Or.inr (by omega)),
      read16_end_nested_other _ 48 74 (Or.inr (by omega)),
      read16_end_nested_other _ 52 74 (Or.inr (by omega))]
    unfold vethAfterName
    have ht := read16_append_type vethPeerOpen IFLA_IFNAME (strBytes name_in ++ [0])
      (by decide)
    have hofs : NLMSG_ALIGN vethPeerOpen.nlmsg_len + 2 = 74 := by rw [hP]
    rw [hofs] at ht
    exact ht
  have h72 : read16 (create_veth_pair_req name_out name_in).mem 72
      = 4 + ((strBytes name_in).length + 1) := by
    rw [create_veth_pair_req_eq,
      read16_append_lt _ _ _ 72 (by rw [hcl]; omega)]
    unfold vethClosed
    rw [read16_end_nested_other _ 32 72 (Or.inr (by omega)),
      read16_end_nested_other _ 48 72 (Or.inr (by omega)),
      read16_end_nested_other _ 52 72 (Or.inr (by omega))]
    unfold vethAfterName
    have hlen : (strBytes name_in ++ [0]).length = (strBytes name_in).length + 1 := by simp
    have ht := read16_append_len vethPeerOpen IFLA_IFNAME (strBytes name_in ++ [0])
      (by rw [RTA_LENGTH_eq, hlen]; omega)
    rw [hP] at ht
    rw [ht, RTA_LENGTH_eq, hlen]
  have h52 : read16 (create_veth_pair_req name_out name_in).mem 52
      = 20 + NLMSG_ALIGN ((strBytes name_in).length + 5) := by
    rw [create_veth_pair_req_eq,
      read16_append_lt _ _ _ 52 (by rw [hcl]; omega)]
    unfold vethClosed
    rw [read16_end_nested_other _ 32 52 (Or.inr (by omega)),
      read16_end_nested_other _ 48 52 (Or.inr (by omega))]
    have ht := read16_end_nested_same (vethAfterName name_in) 52 (by rw [hAf]; omega)
    rw [ht, hAf]
    omega
  have h48 : read16 (create_veth_pair_req name_out name_in).mem 48
      = 24 + NLMSG_ALIGN ((strBytes name_in).length + 5) := by
    rw [create_veth_pair_req_eq,
      read16_append_lt _ _ _ 48 (by rw [hcl]; omega)]
    unfold vethClosed
    rw [read16_end_nested_other _ 32 48 (Or.inr (by omega))]
    have ht := read16_end_nested_same (rtattr_end_nested (vethAfterName name_in) 52) 48
      (by rw [end_nested_len, hAf]; omega)
    rw [end_nested_len] at ht
    rw [ht, hAf]
    omega
  have h32 : read16 (create_veth_pair_req name_out name_in).mem 32
      = 40 + NLMSG_ALIGN ((strBytes name_in).length + 5) := by
    rw [create_veth_pair_req_eq,
      read16_append_lt _ _ _ 32 (by rw [hcl]; omega)]
    unfold vethClosed
    have ht := read16_end_nested_same
      (rtattr_end_nested (rtattr_end_nested (vethAfterName name_in) 52) 48) 32
      (by rw [end_nested_len, end_nested_len, hAf]; omega)
    rw [end_nested_len, end_nested_len] at ht
    rw [ht, hAf]
    omega
  have hM0 : macvlanOpen.nlmsg_len = 48 := rfl
  have hless : (le32 master).length = 4 := rfl
  have hM1 : (rtattr_append (rtattr_end_nested macvlanOpen 32) IFLA_LINK
      (le32 master)).nlmsg_len = 56 := by
    rw [append_len, end_nested_len, hM0, hless]
    decide
  have hm32 : read16 (create_macvlan_req master name).mem 32 = 16 := by
    rw [create_macvlan_req_eq,
      read16_append_lt _ _ _ 32 (by rw [hM1]; decide),
      read16_append_lt _ _ _ 32 (by rw [end_nested_len, hM0]; decide)]
    have ht := read16_end_nested_same macvlanOpen 32 (by rw [hM0]; decide)
    rw [ht, hM0]
    decide
  refine ⟨h34, h50, h54, h74, ?_, h72, ?_, ?_, hm32⟩
  · rw [h52]
    simp only [ifinfomsgSize]
  · rw [h48, h52]
    omega
  · rw [h32, h48]
    omega

/-- C5 witness: the veth request for a concrete pair of names; the peer's
back-patched length covers the embedded body plus the padded name. -/
theorem C5_veth_peer_nesting_witness :
    (strBytes "pflask-4242").length < 65000 ∧
    read16 (create_veth_pair_req "veth-out" "pflask-4242").mem 52
      = 4 + ifinfomsgSize + NLMSG_ALIGN ((strBytes "pflask-4242").length + 5) :=
  ⟨by decide,
    (C5_veth_peer_nesting "veth-out" "pflask-4242" 2 "mv0" (by decide)).2.2.2.2.1⟩

theorem create_macvlan_eq (env : Env) (s : St) (master : Nat) (name : String) :
    create_macvlan env s master name = doExchange env s (create_macvlan_req master name) := rfl

theorem create_veth_pair_eq (env : Env) (s : St) (name_out name_in : String) :
    create_veth_pair env s name_out name_in
      = doExchange env s (create_veth_pair_req name_out name_in) := rfl

theorem move_and_rename_if_eq (env : Env) (s : St) (pid : Int) (if_index : Nat)
    (new_name : String) :
    move_and_rename_if env s pid if_index new_name
      = doExchange env { s with trace := s.trace ++ [.moveRename if_index pid new_name] }
          (move_and_rename_req pid if_index new_name) := rfl

theorem doExchange_st (env : Env) (s : St) (req : Nlmsg) :
    (doExchange env s req).1 = ⟨s.count + 1, s.trace ++ [.sent req]⟩ := by
  unfold doExchange
  cases h : checkResponse (env.replies s.count).1 (env.replies s.count).2 with
  | error e => simp [h]
  | ok u => simp [h]

theorem doExchange_ok (env : Env) (s : St) (req : Nlmsg)
    (h : (env.replies s.count).1 ≠ NLMSG_ERROR) :
    doExchange env s req = (⟨s.count + 1, s.trace ++ [.sent req]⟩, none) := by
  unfold doExchange checkResponse
  simp [h]

theorem doExchange_err_shape (env : Env) (s : St) (req : Nlmsg) (e : NlErr)
    (h : (doExchange env s req).2 = some e) : ∃ c, e = .netlinkRejected c := by
  unfold doExchange checkResponse at h
  by_cases h1 : (env.replies s.count).1 = NLMSG_ERROR
  · by_cases h2 : (env.replies s.count).2 < 0
    · simp [h1, h2] at h
      exact ⟨_, h.symm⟩
    · simp [h1, h2] at h
  · simp [h1] at h

theorem doExchange_ne_inf (env : Env) (s : St) (req : Nlmsg) (n : String) :
    (doExchange env s req).2 ≠ some (.interfaceNotFound n) := by
  intro h
  obtain ⟨c, hc⟩ := doExchange_err_shape env s req _ h
  simp at hc

theorem processOne_ok (env : Env) (pid : Int) (s : St) (a : NetifEntry)
    (hrep : ∀ n, (env.replies n).1 ≠ NLMSG_ERROR)
    (hlook : ∀ nm, env.lookup nm ≠ 0) :
    (processOne env pid s a).2 = none ∧
    moveRenameNames (processOne env pid s a).1.trace
      = moveRenameNames s.trace ++ [a.name] := by
  obtain ⟨t, dev, nm⟩ := a
  cases t with
  | MOVE =>
      simp [processOne, move_and_rename_if_eq, doExchange_ok, hrep, hlook dev,
        moveRenameNames, List.filterMap_append]
  | MACVLAN =>
      simp [processOne, create_macvlan_eq, move_and_rename_if_eq, doExchange_ok, hrep,
        hlook dev, moveRenameNames, List.filterMap_append]
  | VETH =>
      simp [processOne, create_veth_pair_eq, move_and_rename_if_eq, doExchange_ok, hrep,
        moveRenameNames, List.filterMap_append]

theorem processList_ok (env : Env) (pid : Int)
    (hrep : ∀ n, (env.replies n).1 ≠ NLMSG_ERROR)
    (hlook : ∀ nm, env.lookup nm ≠ 0) :
    ∀ (l : List NetifEntry) (s : St),
    (processList env pid s l).2 = none ∧
    moveRenameNames (processList env pid s l).1.trace
      = moveRenameNames s.trace ++ l.map (fun a => a.name) := by
  intro l
  induction l with
  | nil => intro s; simp [processList]
  | cons a rest ih =>
      intro s
      obtain ⟨h1, h2⟩ := processOne_ok env pid s a hrep hlook
      rcases hpo : processOne env pid s a with ⟨s1, r⟩
      rw [hpo] at h1 h2
      simp at h1
      subst h1
      have hstep : processList env pid s (a :: rest) = processList env pid s1 rest := by
        simp [processList, hpo]
      rw [hstep]
      obtain ⟨g1, g2⟩ := ih s1
      refine ⟨g1, ?_⟩
      rw [g2]
      simp only at h2
      rw [h2]
      simp

theorem foldl_add_netif (regs : List NetifEntry) : ∀ (init : List NetifEntry),
    regs.foldl (fun q a => add_netif q a.type a.dev a.name) init = regs.reverse ++ init := by
  induction regs with
  | nil => intro init; simp
  | cons a rest ih =>
      intro init
      simp only [List.foldl_cons, List.reverse_cons]
      rw [ih]
      simp [add_netif]

theorem reverseLoop_eq (l : List NetifEntry) : ∀ (acc : List NetifEntry),
    reverseLoop l acc = l.reverse ++ acc := by
  induction l with
  | nil => intro acc; simp [reverseLoop]
  | cons a rest ih =>
      intro acc
      simp only [reverseLoop, List.reverse_cons]
      rw [ih]
      simp

/-- C1: the queue is built by prepending (`add_netif`) and `do_netif`
reverses it before processing, so for any environment in which every
lookup resolves and the kernel acknowledges every request, the actions
registered in order `regs` are each processed exactly once and handed to
`move_and_rename_if` in exactly registration order: the sequence of final
names passed to `move_and_rename_if` equals `regs.map name`. -/
theorem C1_fifo_order (env : Env) (pid : Int) (regs : List NetifEntry)
    (hrep : ∀ n, (env.replies n).1 ≠ NLMSG_ERROR)
    (hlook : ∀ nm, env.lookup nm ≠ 0) :
    (do_netif env pid (regs.foldl (fun q a => add_netif q a.type a.dev a.name) [])).2.2
        = none ∧
    moveRenameNames
        (do_netif env pid
          (regs.foldl (fun q a => add_netif q a.type a.dev a.name) [])).2.1.trace
      = regs.map (fun a => a.name) := by
  have hq : reverseLoop (regs.foldl (fun q a => add_netif q a.type a.dev a.name) []) []
      = regs := by
    rw [foldl_add_netif regs [], List.append_nil, reverseLoop_eq]
    simp
  unfold do_netif
  rw [hq]
  have h := processList_ok env pid hrep hlook regs initSt
  simpa [initSt, moveRenameNames] using h

/-- C1 witness: the spec's end-to-end scenario under a fully successful
environment: the three move-and-rename calls carry "wan", "mv0",
"veth-in" in registration order. -/
theorem C1_fifo_order_witness :
    (∀ n, (okEnv.replies n).1 ≠ NLMSG_ERROR) ∧
    (∀ nm, okEnv.lookup nm ≠ 0) ∧
    moveRenameNames
        (do_netif okEnv 4242
          (fifoRegs.foldl (fun q a => add_netif q a.type a.dev a.name) [])).2.1.trace
      = ["wan", "mv0", "veth-in"] := by
  have h1 : ∀ n, (okEnv.replies n).1 ≠ NLMSG_ERROR := by
    intro n
    simp [okEnv, NLMSG_ERROR]
  have h2 : ∀ nm, okEnv.lookup nm ≠ 0 := by
    intro nm
    simp [okEnv]
  refine ⟨h1, h2, ?_⟩
  have h3 := (C1_fifo_order okEnv 4242 fifoRegs h1 h2).2
  simpa [fifoRegs] using h3

/-- C6: every builder checks the reply with the same test — if the reply
header's kind is `NLMSG_ERROR` and the carried signed code is negative,
the run fails with `netlinkRejected (-code)` (the negated code is exactly
the number the C hands to `strerror` for the human-readable message); a
zero code under the error kind is treated as success.  A failing action
aborts the whole remaining sequence: `processList` stops at the failing
action, returning its state and error without touching the rest, while a
successful action lets processing continue with the rest. -/
theorem C6_error_abort :
    (∀ e : Int, e < 0 → checkResponse NLMSG_ERROR e = .error (.netlinkRejected (-e))) ∧
    checkResponse NLMSG_ERROR 0 = .ok () ∧
    (∀ (env : Env) (pid : Int) (s : St) (a : NetifEntry) (rest : List NetifEntry) (e : NlErr),
        (processOne env pid s a).2 = some e →
        processList env pid s (a :: rest) = ((processOne env pid s a).1, some e)) ∧
    (∀ (env : Env) (pid : Int) (s : St) (a : NetifEntry) (rest : List NetifEntry),
        (processOne env pid s a).2 = none →
        processList env pid s (a :: rest)
          = processList env pid (processOne env pid s a).1 rest) := by
  refine ⟨?_, ?_, ?_, ?_⟩
  · intro e he
    simp [checkResponse, he]
  · simp [checkResponse]
  · intro env pid s a rest e h
    rcases hpo : processOne env pid s a with ⟨s1, r⟩
    rw [hpo] at h
    simp only at h
    subst h
    simp [processList, hpo]
  · intro env pid s a rest h
    rcases hpo : processOne env pid s a with ⟨s1, r⟩
    rw [hpo] at h
    simp only at h
    subst h
    simp [processList, hpo]

/-- C6 witness: a simulated rejection (reply kind error, code -1)
surfaces as `netlinkRejected 1` and stops the queue before the second
action. -/
theorem C6_error_abort_witness :
    ((-1 : Int) < 0) ∧
    checkResponse NLMSG_ERROR (-1) = .error (.netlinkRejected 1) ∧
    (processOne errEnv 7 initSt ⟨.MOVE, "eth0", "wan"⟩).2 = some (.netlinkRejected 1) ∧
    processList errEnv 7 initSt [⟨.MOVE, "eth0", "wan"⟩, ⟨.MOVE, "eth1", "lan"⟩]
      = ((processOne errEnv 7 initSt ⟨.MOVE, "eth0", "wan"⟩).1, some (.netlinkRejected 1)) := by
  have h1 : ((-1 : Int) < 0) := by norm_num
  have h2 := C6_error_abort.1 (-1) h1
  have h3 : (processOne errEnv 7 initSt ⟨.MOVE, "eth0", "wan"⟩).2
      = some (.netlinkRejected 1) := by decide
  exact ⟨h1, by simpa using h2, h3,
    C6_error_abort.2.2.1 errEnv 7 initSt ⟨.MOVE, "eth0", "wan"⟩ [⟨.MOVE, "eth1", "lan"⟩]
      (.netlinkRejected 1) h3⟩

/-- C7: `interfaceNotFound` is raised by `processOne` exactly when the
pre-request lookup of the action's source name (for `MOVE`) or master
name (for `MACVLAN`) returns 0, and it names that very interface; no
other path (exchange replies, `VETH` actions, the unchecked transient
re-lookup) can produce it.  Moreover when that checked lookup fails, the
action dies before any request is issued: the trace gains only the
failed lookup event. -/
theorem C7_interface_not_found (env : Env) (pid : Int) (s : St) (a : NetifEntry) (n : String) :
    ((processOne env pid s a).2 = some (.interfaceNotFound n) ↔
      ((a.type = .MOVE ∨ a.type = .MACVLAN) ∧ env.lookup a.dev = 0 ∧ n = a.dev)) ∧
    (env.lookup a.dev = 0 → a.type ≠ .VETH →
      (processOne env pid s a).1.trace = s.trace ++ [.lookup a.dev 0]) := by
  obtain ⟨t, dev, nm⟩ := a
  refine ⟨?_, ?_⟩
  · cases t with
    | MOVE =>
        by_cases h0 : env.lookup dev = 0
        · simp only [processOne]
          rw [if_pos h0]
          constructor
          · intro h
            simp only [Option.some.injEq, NlErr.interfaceNotFound.injEq] at h
            exact ⟨Or.inl trivial, h0, h.symm⟩
          · rintro ⟨_, _, rfl⟩
            rfl
        · simp only [processOne]
          rw [if_neg h0, move_and_rename_if_eq]
          refine iff_of_false (doExchange_ne_inf _ _ _ _) ?_
          rintro ⟨_, h0', _⟩
          exact h0 h0'
    | MACVLAN =>
        by_cases h0 : env.lookup dev = 0
        · simp only [processOne]
          rw [if_pos h0]
          constructor
          · intro h
            simp only [Option.some.injEq, NlErr.interfaceNotFound.injEq] at h
            exact ⟨Or.inr trivial, h0, h.symm⟩
          · rintro ⟨_, _, rfl⟩
            rfl
        · simp only [processOne]
          rw [if_neg h0]
          rcases hc : create_macvlan env
              { s with trace := s.trace ++ [.lookup dev (env.lookup dev)] }
              (env.lookup dev) (transientName pid) with ⟨s2, r⟩
          cases r with
          | some e =>
              have h2 : (doExchange env
                  { s with trace := s.trace ++ [.lookup dev (env.lookup dev)] }
                  (create_macvlan_req (env.lookup dev) (transientName pid))).2 = some e := by
                rw [← create_macvlan_eq, hc]
              obtain ⟨c, rfl⟩ := doExchange_err_shape _ _ _ _ h2
              refine iff_of_false (by simp) ?_
              rintro ⟨_, h0', _⟩
              exact h0 h0'
          | none =>
              simp only []
              rw [move_and_rename_if_eq]
              refine iff_of_false (doExchange_ne_inf _ _ _ _) ?_
              rintro ⟨_, h0', _⟩
              exact h0 h0'
    | VETH =>
        simp only [processOne]
        rcases hc : create_veth_pair env s dev (transientName pid) with ⟨s2, r⟩
        cases r with
        | some e =>
            have h2 : (doExchange env s (create_veth_pair_req dev (transientName pid))).2
                = some e := by
              rw [← create_veth_pair_eq, hc]
            obtain ⟨c, rfl⟩ := doExchange_err_shape _ _ _ _ h2
            refine iff_of_false (by simp) ?_
            rintro ⟨h | h, _, _⟩ <;> simp at h
        | none =>
            simp only []
            rw [move_and_rename_if_eq]
            refine iff_of_false (doExchange_ne_inf _ _ _ _) ?_
            rintro ⟨h | h, _, _⟩ <;> simp at h
  · intro h0 hveth
    cases t with
    | MOVE => simp [processOne, h0]
    | MACVLAN => simp [processOne, h0]
    | VETH => exact absurd rfl hveth

/-- C7 witness: with an unresolvable source, a `MOVE` action raises
`interfaceNotFound "eth0"` and stops before any request, leaving only the
failed lookup in the trace. -/
theorem C7_interface_not_found_witness :
    (processOne noneEnv 7 initSt ⟨.MOVE, "eth0", "wan"⟩).2
        = some (.interfaceNotFound "eth0") ∧
    (processOne noneEnv 7 initSt ⟨.MOVE, "eth0", "wan"⟩).1.trace
        = initSt.trace ++ [.lookup "eth0" 0] :=
  ⟨(C7_interface_not_found noneEnv 7 initSt ⟨.MOVE, "eth0", "wan"⟩ "eth0").1.mpr
      ⟨Or.inl rfl, rfl, rfl⟩,
    (C7_interface_not_found noneEnv 7 initSt ⟨.MOVE, "eth0", "wan"⟩ "eth0").2 rfl
      (by simp)⟩

/-- C8: `setup_loopback` opens a session and issues exactly one request —
the bring-up message with interface index fixed to 1, `ifi_flags` and
`ifi_change` both `IFF_UP`, and header flags request|acknowledge.  It
performs no name-to-index lookup (the trace holds no lookup event) and
can never fail with `interfaceNotFound`, whatever the kernel replies. -/
theorem C8_loopback_single_request (env : Env) :
    (setup_loopback env).1.trace = [.sent (if_up_req 1)] ∧
    (if_up_req 1).ifi_index = 1 ∧
    (if_up_req 1).ifi_flags = IFF_UP ∧
    (if_up_req 1).ifi_change = IFF_UP ∧
    (if_up_req 1).nlmsg_flags = Nat.lor NLM_F_REQUEST NLM_F_ACK ∧
    (if_up_req 1).nlmsg_type = RTM_NEWLINK ∧
    (∀ nm r, Ev.lookup nm r ∉ (setup_loopback env).1.trace) ∧
    (∀ nm, (setup_loopback env).2 ≠ some (.interfaceNotFound nm)) := by
  have hst : (setup_loopback env).1 = ⟨1, [.sent (if_up_req 1)]⟩ := by
    unfold setup_loopback if_up
    rw [doExchange_st]
    rfl
  refine ⟨by rw [hst], rfl, rfl, rfl, rfl, rfl, ?_, ?_⟩
  · intro nm r
    rw [hst]
    simp
  · intro nm
    exact doExchange_ne_inf env initSt (if_up_req 1) nm

/-- C9: `do_netif` empties the queue before processing (the reversal loop
leaves the global list null), so its returned queue is always `[]`, and a
second call on that empty queue is a pure no-op: it returns the empty
queue, the initial state (empty trace — no lookups, no requests, no
move-and-rename) and no error, for any environment and pid. -/
theorem C9_queue_emptied (env : Env) (pid : Int) (queue : List NetifEntry)
    (env2 : Env) (pid2 : Int) :
    (do_netif env pid queue).1 = [] ∧
    do_netif env2 pid2 (do_netif env pid queue).1 = ([], initSt, none) ∧
    (do_netif env2 pid2 (do_netif env pid queue).1).2.1.trace = [] :=
  ⟨rfl, rfl, rfl⟩

/-- C10: for `MACVLAN` (with a resolvable master) and `VETH` actions,
after the create request is acknowledged the re-resolution of the
transient name `pflask-<pid>` is not checked: when that lookup returns 0
the action still succeeds with no error of any kind, and
`move_and_rename_if` is invoked with interface index 0. -/
theorem C10_unchecked_transient_lookup (env : Env) (pid : Int) (s : St) (a : NetifEntry)
    (hrep : ∀ n, (env.replies n).1 ≠ NLMSG_ERROR)
    (htr : env.lookup (transientName pid) = 0)
    (hty : (a.type = .MACVLAN ∧ env.lookup a.dev ≠ 0) ∨ a.type = .VETH) :
    (processOne env pid s a).2 = none ∧
    Ev.moveRename 0 pid a.name ∈ (processOne env pid s a).1.trace := by
  obtain ⟨t, dev, nm⟩ := a
  rcases hty with ⟨hmac, h0⟩ | hveth
  · simp only at hmac
    subst hmac
    simp only at h0
    constructor
    · simp [processOne, create_macvlan_eq, move_and_rename_if_eq, doExchange_ok, hrep,
        h0, htr]
    · simp [processOne, create_macvlan_eq, move_and_rename_if_eq, doExchange_ok, hrep,
        h0, htr]
  · simp only at hveth
    subst hveth
    constructor
    · simp [processOne, create_veth_pair_eq, move_and_rename_if_eq, doExchange_ok, hrep,
        htr]
    · simp [processOne, create_veth_pair_eq, move_and_rename_if_eq, doExchange_ok, hrep,
        htr]

/-- C10 witness: a `VETH` action under `staleEnv` raises no error and
calls move-and-rename with index 0. -/
theorem C10_unchecked_transient_lookup_witness :
    staleEnv.lookup (transientName 4242) = 0 ∧
    (processOne staleEnv 4242 initSt ⟨.VETH, "veth-out", "veth-in"⟩).2 = none ∧
    Ev.moveRename 0 4242 "veth-in"
      ∈ (processOne staleEnv 4242 initSt ⟨.VETH, "veth-out", "veth-in"⟩).1.trace := by
  have h1 : ∀ n, (staleEnv.replies n).1 ≠ NLMSG_ERROR := by
    intro n
    simp [staleEnv, NLMSG_ERROR]
  have h2 : staleEnv.lookup (transientName 4242) = 0 := by
    simp [staleEnv]
  have h3 := C10_unchecked_transient_lookup staleEnv 4242 initSt
    ⟨.VETH, "veth-out", "veth-in"⟩ h1 h2 (Or.inr rfl)
  exact ⟨h2, h3.1, h3.2⟩

/-- C8 witness: under a concrete acknowledging environment the loopback
bring-up trace is the single sent request and the result is not an
`interfaceNotFound`. -/
theorem C8_loopback_single_request_witness :
    (setup_loopback okEnv).1.trace = [.sent (if_up_req 1)] ∧
    (∀ nm, (setup_loopback okEnv).2 ≠ some (.interfaceNotFound nm)) :=
  ⟨(C8_loopback_single_request okEnv).1,
    (C8_loopback_single_request okEnv).2.2.2.2.2.2.2⟩
